import Mathlib

/-!
Verification of the financial-ai-site request handlers.

This file gives a shallow embedding, in Lean 4, of the pure core of the
repository's Netlify handler functions:

* `netlify/functions/extractPriorPdf.js` — base64 body decoding and the
  PDF magic-header gate;
* the model-fallback loop of `generateStatements.js` (the SDK variant);
* the attachment loop with the 10 MB size guard of
  `netlify/functions/generateStatements.js`;
* `netlify/readTrialBalances.js` — `parseCSV` / `parseXLSX`;
* `netlify/functions/parseTrialBalances.js` — `toKeyValue`;
* `netlify/functions/filingHistory.js` (both variants in the file) and the
  document-resolving variant (`getPdfUrl`).

External collaborators (the XLSX library, the generative-model API, the
registry HTTP API, UTF-8 decoding, JavaScript's `Number` / `parseFloat`
primitives and `Date` parsing) are modelled as explicit oracle parameters,
so every theorem quantifies over their behaviour; concrete executable
instances are supplied for witnesses.  JavaScript strings are modelled by
Lean `String` (the handlers only inspect ASCII), JS byte buffers by
`List Nat`, JS objects used as string-keyed maps by association lists, and
JS `undefined`/missing fields by `Option`.
-/

/-! ### JavaScript string primitives -/

/-- ASCII lower-casing of one character; models `String.prototype.toLowerCase`
on the ASCII inputs the handlers inspect. -/
def toLowerChar (c : Char) : Char :=
  if 'A' ≤ c ∧ c ≤ 'Z' then Char.ofNat (c.toNat + 32) else c

/-- Models `s.toLowerCase()` (ASCII fragment). -/
def strLower (s : String) : String :=
  String.mk (s.toList.map toLowerChar)

/-- `true` iff `needle` occurs as a contiguous substring of `hay`;
models `hay.includes(needle)` and substring regex tests. -/
def strIncludes (hay needle : String) : Bool :=
  hay.toList.tails.any (fun t => needle.toList.isPrefixOf t)

/-- Case-insensitive substring test; models `/needle/i.test(hay)` for a
literal-only regular expression. -/
def includesCI (hay needle : String) : Bool :=
  strIncludes (strLower hay) (strLower needle)

/-- The ASCII whitespace class of JavaScript's `\s` / `trim`. -/
def isJsWs (c : Char) : Bool :=
  c = ' ' ∨ c = '\t' ∨ c = '\n' ∨ c = '\r' ∨ c = '\x0b' ∨ c = '\x0c'

/-- Trim JS whitespace from both ends of a character list. -/
def trimL (l : List Char) : List Char :=
  ((l.dropWhile isJsWs).reverse.dropWhile isJsWs).reverse

/-- Models `s.trim()`. -/
def jsTrim (s : String) : String :=
  String.mk (trimL s.toList)

/-- Models the JS expression `v || d` for a possibly-absent string `v`
(`none` stands for `undefined`/`null`; the empty string is falsy). -/
def jsOr (v : Option String) (d : String) : String :=
  match v with
  | some s => if s = "" then d else s
  | none => d

/-- Models `v || null` for a possibly-absent string: the empty string
collapses to `null`. -/
def jsOrNull (v : Option String) : Option String :=
  match v with
  | some s => if s = "" then none else some s
  | none => none

/-- JS truthiness of a possibly-absent string. -/
def truthyStr (v : Option String) : Bool :=
  match v with
  | some s => s ≠ ""
  | none => false

/-- Index of the first occurrence of `needle` in `hay`
(models `hay.indexOf(needle)`, with `none` for `-1`). -/
def firstIdx (needle : List Char) : List Char → Option Nat
  | [] => if needle.isPrefixOf ([] : List Char) then some 0 else none
  | c :: t =>
    if needle.isPrefixOf (c :: t) then some 0
    else (firstIdx needle t).map (· + 1)

/-! ### Node's lenient base64 decoder

`Buffer.from(s, "base64")` in Node never throws: characters outside the
base64 alphabet are ignored, and a trailing group of 2 or 3 sextets yields
its 1 or 2 bytes (a lone trailing sextet is dropped).  The model below
implements exactly that for inputs over the base64 alphabet (padding `=`
and foreign characters are ignored, as Node does). -/

/-- Value of one base64 alphabet character. -/
def b64val (c : Char) : Option Nat :=
  if 'A' ≤ c ∧ c ≤ 'Z' then some (c.toNat - 65)
  else if 'a' ≤ c ∧ c ≤ 'z' then some (c.toNat - 97 + 26)
  else if '0' ≤ c ∧ c ≤ '9' then some (c.toNat - 48 + 52)
  else if c = '+' then some 62
  else if c = '/' then some 63
  else none

/-- Reassemble bytes from a list of sextets, four at a time, with lenient
handling of a short trailing group. -/
def b64groups : List Nat → List Nat
  | a :: b :: c :: d :: rest =>
    (a * 4 + b / 16) :: (b % 16 * 16 + c / 4) :: (c % 4 * 64 + d) :: b64groups rest
  | [a, b] => [a * 4 + b / 16]
  | [a, b, c] => [a * 4 + b / 16, b % 16 * 16 + c / 4]
  | _ => []

/-- Models `Buffer.from(s, "base64")` (Node's lenient decoder). -/
def b64decode (s : String) : List Nat :=
  b64groups (s.toList.filterMap b64val)

/-! ### `netlify/functions/extractPriorPdf.js` -/

/-- `looksLikePDF` from `extractPriorPdf.js`: the buffer is longer than 4
bytes and its first four bytes spell `%PDF`. -/
def looksLikePDF (buf : List Nat) : Bool :=
  decide (4 < buf.length) && decide (buf.take 4 = [37, 80, 68, 70])

/-- The data-URL stripping step of the handler: if the body starts with
`data:` and contains `base64,`, keep only what follows `base64,`. -/
def stripDataUrl (raw : String) : String :=
  if ("data:".toList).isPrefixOf raw.toList then
    match firstIdx ("base64,".toList) raw.toList with
    | some i => String.mk (raw.toList.drop (i + 7))
    | none => raw
  else raw

/-- The incoming Netlify event, restricted to the fields
`extractPriorPdf.js` reads.  `contentType` is the resolved value of
`headers["content-type"] || headers["Content-Type"] || ""`. -/
structure ExtractEvent where
  httpMethod : String
  contentType : String
  body : String
  isBase64Encoded : Bool
  deriving DecidableEq, Repr

/-- What the handler decides to do with a request: reject with 405, reject
with a 400 message, or hand a decoded buffer to `pdfParse`. -/
inductive ExtractDecision where
  | methodNotAllowed
  | reject400 (msg : String)
  | extract (buf : List Nat)
  deriving DecidableEq, Repr

/-- The 400 message issued when the PDF magic-header check fails
(step 3 of the handler). -/
def pdfMagicErr : String :=
  "Expected a base64-encoded PDF body (or multipart with a PDF file)."

/-- The 400 message issued when a multipart body holds no file part. -/
def noMultipartFileErr : String :=
  "No PDF file found in multipart body."

/-- Whether the content type announces a multipart boundary; models the
test `contentType.match(/boundary=([^;]+)/i)` (when this is `false` the
regex certainly fails, which is the only direction the theorems use). -/
def hasBoundary (ct : String) : Bool :=
  includesCI ct "boundary="

/-- Control flow of the `extractPriorPdf.js` handler.  The multipart
parser is an external collaborator: `multipartFile` is the byte payload of
the file part it would select (`none` when it finds no file part). -/
def extractPriorPdfDecision (e : ExtractEvent) (multipartFile : Option (List Nat)) :
    ExtractDecision :=
  if e.httpMethod ≠ "POST" then .methodNotAllowed
  else if hasBoundary e.contentType then
    match multipartFile with
    | none => .reject400 noMultipartFileErr
    | some data =>
      if looksLikePDF data then .extract data else .reject400 pdfMagicErr
  else
    let buf := b64decode (stripDataUrl e.body)
    if looksLikePDF buf then .extract buf else .reject400 pdfMagicErr

/-! #### C9 -/

/-- C9: for a non-multipart POST, the body (after data-URL stripping) is
base64-decoded and PDF extraction is attempted iff the decoded buffer is
longer than 4 bytes and starts with `%PDF`; otherwise the handler answers
400 without invoking the PDF parser. -/
theorem extractPriorPdf_magic_gate (e : ExtractEvent) (mp : Option (List Nat))
    (hm : e.httpMethod = "POST") (hb : hasBoundary e.contentType = false) :
    (extractPriorPdfDecision e mp = .extract (b64decode (stripDataUrl e.body)) ↔
      looksLikePDF (b64decode (stripDataUrl e.body)) = true) ∧
    (looksLikePDF (b64decode (stripDataUrl e.body)) = false →
      extractPriorPdfDecision e mp = .reject400 pdfMagicErr) := by
  unfold extractPriorPdfDecision
  rw [hm, hb]
  simp only [ne_eq, not_true_eq_false, if_false, Bool.false_eq_true, if_neg]
  constructor
  · constructor
    · intro h
      by_contra hc
      rw [Bool.not_eq_true] at hc
      rw [if_neg (by simp [hc])] at h
      exact ExtractDecision.noConfusion h
    · intro h
      rw [if_pos h]
  · intro h
    rw [if_neg (by simp [h])]

theorem extractPriorPdf_magic_gate_witness :
    extractPriorPdfDecision ⟨"POST", "application/json", "JVBERi0", false⟩ none =
      .extract [37, 80, 68, 70, 45] :=
  ((extractPriorPdf_magic_gate ⟨"POST", "application/json", "JVBERi0", false⟩ none
      rfl (by decide)).1.mpr (by decide)).trans (by decide)

/-! #### C3 -/

/-- C3 counterexample: the base64 body `JVBERi0` has length 7 (not a
multiple of 4), yet the handler does not fail with an integrity error — it
decodes the body leniently to the five bytes `%PDF-` and passes that
buffer downstream to the PDF parser. -/
theorem extractPriorPdf_no_integrity_check_counterexample :
    ("JVBERi0".length % 4 = 3) ∧
    extractPriorPdfDecision ⟨"POST", "application/json", "JVBERi0", false⟩ none =
      .extract [37, 80, 68, 70, 45] := by
  constructor
  · decide
  · decide

/-- C3 (amended): the decode step never performs a length-mod-4 integrity
check.  For every non-multipart POST body whose length is not a multiple
of 4, the body is still decoded leniently, and the request is either
passed downstream (when the decoded bytes look like a PDF) or rejected
with the PDF magic-header message — never with a truncation/integrity
error. -/
theorem extractPriorPdf_lenient_decode (e : ExtractEvent) (mp : Option (List Nat))
    (hm : e.httpMethod = "POST") (hb : hasBoundary e.contentType = false)
    (hlen : e.body.length % 4 ≠ 0) :
    (extractPriorPdfDecision e mp = .extract (b64decode (stripDataUrl e.body)) ∨
      extractPriorPdfDecision e mp = .reject400 pdfMagicErr) ∧
    (extractPriorPdfDecision e mp = .extract (b64decode (stripDataUrl e.body)) ↔
      looksLikePDF (b64decode (stripDataUrl e.body)) = true) := by
  have h := extractPriorPdf_magic_gate e mp hm hb
  refine ⟨?_, h.1⟩
  by_cases hc : looksLikePDF (b64decode (stripDataUrl e.body)) = true
  · exact Or.inl (h.1.mpr hc)
  · exact Or.inr (h.2 (Bool.not_eq_true _ ▸ hc))

theorem extractPriorPdf_lenient_decode_witness :
    extractPriorPdfDecision ⟨"POST", "application/json", "JVBERi0", false⟩ none =
      .extract (b64decode (stripDataUrl "JVBERi0")) ∧ "JVBERi0".length % 4 = 3 :=
  ⟨((extractPriorPdf_lenient_decode ⟨"POST", "application/json", "JVBERi0", false⟩ none
      rfl (by decide) (by decide)).2).mpr (by decide), by decide⟩

/-! ### The model-fallback loop of `generateStatements.js` (SDK variant)

The loop "try models in order until one works".  A generation attempt via
the SDK either resolves with text or rejects with an error message; the
network and SDK together are the oracle `call : String → CallOutcome`
(the prompt is fixed for one request, so it is folded into the oracle). -/

/-- Outcome of one `tryModel` attempt for a given model identifier. -/
inductive CallOutcome where
  | success (text : String)
  | failure (msg : String)
  deriving DecidableEq, Repr

/-- Models `/not found|404/i.test(msg)`. -/
def isNotFoundErr (msg : String) : Bool :=
  includesCI msg "not found" || includesCI msg "404"

/-- Models `/not supported/i.test(msg)`. -/
def isNotSupportedErr (msg : String) : Bool :=
  includesCI msg "not supported"

/-- Models `out || "No output generated."` at the end of `tryModel`. -/
def tryModelText (t : String) : String :=
  if t = "" then "No output generated." else t

/-- Result of the candidate loop: a 200 with output and the model used, a
terminal 500 naming the model tried, or exhaustion of all candidates. -/
inductive GenOutcome where
  | ok (output model : String)
  | terminal (model msg : String)
  | exhausted (lastErr : Option String)
  deriving DecidableEq, Repr

/-- The candidate loop of the handler, instrumented with the list of model
identifiers for which a generation call was actually issued (first
component).  `lastErr` is the running `lastErr` variable. -/
def modelFallback (call : String → CallOutcome) :
    List String → Option String → List String × GenOutcome
  | [], lastErr => ([], .exhausted lastErr)
  | m :: rest, lastErr =>
    match call m with
    | .success t => ([m], .ok (tryModelText t) m)
    | .failure msg =>
      if isNotFoundErr msg || isNotSupportedErr msg then
        let r := modelFallback call rest (some msg)
        (m :: r.1, r.2)
      else ([m], .terminal m msg)

/-- The JSON response the handler builds from the loop's outcome. -/
structure GenResponse where
  statusCode : Nat
  output : Option String := none
  model : Option String := none
  error : Option String := none
  modelTried : Option String := none
  details : Option String := none
  tried : Option (List String) := none
  deriving DecidableEq, Repr

/-- Response shaping of the handler around the loop. -/
def renderGen (candidates : List String) : GenOutcome → GenResponse
  | .ok out m => { statusCode := 200, output := some out, model := some m }
  | .terminal m msg =>
      { statusCode := 500, error := some "Failed to generate",
        modelTried := some m, details := some msg }
  | .exhausted lastErr =>
      { statusCode := 500, error := some "Failed to generate",
        details := some (jsOr lastErr "All models unavailable"),
        tried := some candidates }

/-- A model identifier for which the call fails with a retryable
("model not found" / "method not supported") class of error. -/
def retryableFailure (call : String → CallOutcome) (m : String) : Prop :=
  ∃ msg, call m = .failure msg ∧ (isNotFoundErr msg || isNotSupportedErr msg) = true

/-! #### C1 -/

/-- C1: for every ordered candidate list `pre ++ B :: rest` in which every
candidate before `B` fails with a "model not found" / "method not
supported" class of error and `B` succeeds with text, the loop issues
calls exactly for `pre ++ [B]` (none for any candidate after `B`) and
returns `B`'s output text together with `B`'s identifier, as a 200. -/
theorem modelFallback_retryable_advances (call : String → CallOutcome)
    (pre : List String) (B : String) (rest : List String) (t : String)
    (hpre : ∀ m ∈ pre, retryableFailure call m)
    (hB : call B = .success t) (ht : t ≠ "") :
    ∀ le, modelFallback call (pre ++ B :: rest) le = (pre ++ [B], .ok t B) ∧
      renderGen (pre ++ B :: rest) (modelFallback call (pre ++ B :: rest) le).2 =
        { statusCode := 200, output := some t, model := some B } := by
  induction pre with
  | nil =>
    intro le
    have h1 : modelFallback call ([] ++ B :: rest) le = ([] ++ [B], .ok t B) := by
      simp [modelFallback, hB, tryModelText, ht]
    exact ⟨h1, by rw [h1]; rfl⟩
  | cons A pre ih =>
    intro le
    obtain ⟨msg, hA, hcls⟩ := hpre A (List.mem_cons_self A pre)
    have hpre' : ∀ m ∈ pre, retryableFailure call m := fun m hm =>
      hpre m (List.mem_cons_of_mem A hm)
    have hrec := (ih hpre' (some msg)).1
    have h1 : modelFallback call ((A :: pre) ++ B :: rest) le = (A :: pre ++ [B], .ok t B) := by
      show modelFallback call (A :: (pre ++ B :: rest)) le = _
      unfold modelFallback
      rw [hA]
      simp only [hcls, if_pos]
      rw [hrec]
      rfl
    exact ⟨h1, by rw [h1]; rfl⟩

theorem modelFallback_retryable_advances_witness :
    modelFallback
      (fun m => if m = "A" then .failure "model gemini not found" else .success "draft")
      ["A", "B", "C"] none = (["A", "B"], .ok "draft" "B") :=
  ((modelFallback_retryable_advances
      (fun m => if m = "A" then .failure "model gemini not found" else .success "draft")
      ["A"] "B" ["C"] "draft"
      (by intro m hm; simp at hm; subst hm
          exact ⟨"model gemini not found", by decide, by decide⟩)
      (by decide) (by decide)) none).1

/-! #### C2 -/

/-- C2: for every ordered candidate list, if the first candidate to be
actually called after a (possibly empty) prefix of retryable failures
fails with an error that is not of the "model not found" / "method not
supported" class, the loop stops at that candidate: no call is issued for
any remaining candidate and the handler answers 500 naming the model
tried and carrying the error message. -/
theorem modelFallback_terminal_stops (call : String → CallOutcome)
    (pre : List String) (X : String) (rest : List String) (msg : String)
    (hpre : ∀ m ∈ pre, retryableFailure call m)
    (hX : call X = .failure msg)
    (hnf : isNotFoundErr msg = false) (hns : isNotSupportedErr msg = false) :
    ∀ le, modelFallback call (pre ++ X :: rest) le = (pre ++ [X], .terminal X msg) ∧
      renderGen (pre ++ X :: rest) (modelFallback call (pre ++ X :: rest) le).2 =
        { statusCode := 500, error := some "Failed to generate",
          modelTried := some X, details := some msg } := by
  induction pre with
  | nil =>
    intro le
    have h1 : modelFallback call ([] ++ X :: rest) le = ([] ++ [X], .terminal X msg) := by
      simp [modelFallback, hX, hnf, hns]
    exact ⟨h1, by rw [h1]; rfl⟩
  | cons A pre ih =>
    intro le
    obtain ⟨msgA, hA, hcls⟩ := hpre A (List.mem_cons_self A pre)
    have hpre' : ∀ m ∈ pre, retryableFailure call m := fun m hm =>
      hpre m (List.mem_cons_of_mem A hm)
    have hrec := (ih hpre' (some msgA)).1
    have h1 : modelFallback call ((A :: pre) ++ X :: rest) le =
        (A :: pre ++ [X], .terminal X msg) := by
      show modelFallback call (A :: (pre ++ X :: rest)) le = _
      unfold modelFallback
      rw [hA]
      simp only [hcls, if_pos]
      rw [hrec]
      rfl
    exact ⟨h1, by rw [h1]; rfl⟩

theorem modelFallback_terminal_stops_witness :
    modelFallback (fun _ => .failure "quota exceeded") ["A", "B", "C"] none =
      (["A"], .terminal "A" "quota exceeded") ∧
    renderGen ["A", "B", "C"] (.terminal "A" "quota exceeded") =
      { statusCode := 500, error := some "Failed to generate",
        modelTried := some "A", details := some "quota exceeded" } :=
  ⟨((modelFallback_terminal_stops (fun _ => .failure "quota exceeded")
      [] "A" ["B", "C"] "quota exceeded"
      (by intro m hm; exact absurd hm (List.not_mem_nil m))
      (by decide) (by decide) (by decide)) none).1, by decide⟩

/-! ### `netlify/readTrialBalances.js` — CSV and XLSX trial-balance parsing

JS objects used as `name → amount` maps are modelled by association lists
in first-insertion order; `out[name] = (out[name] || 0) + num` is
`upsertAdd`.  Amounts are modelled as integers and the `Number` primitive
as an oracle `num : String → Option Int` (`none` for `NaN`). -/

/-- Models `s.replace(/[, ]/g, "")`. -/
def stripNumJunk (s : String) : String :=
  String.mk (s.toList.filter (fun c => !(c == ',' || c == ' ')))

/-- Split on `/\r?\n/` (a lone carriage return does not split). -/
def splitLinesJS : List Char → List (List Char)
  | [] => [[]]
  | '\r' :: '\n' :: rest => [] :: splitLinesJS rest
  | '\n' :: rest => [] :: splitLinesJS rest
  | c :: rest =>
    match splitLinesJS rest with
    | [] => [[c]]
    | l :: ls => (c :: l) :: ls

/-- Models `s.replace(/^"|"$/g, "")`: one leading and one trailing
double quote are removed. -/
def stripQuotes (cell : List Char) : List Char :=
  let c1 := match cell with
    | '"' :: t => t
    | l => l
  if c1.getLast? = some '"' then c1.dropLast else c1

/-- The line/cell shaping of `parseCSV`: non-blank lines, naively split on
commas, each cell unquoted and trimmed. -/
def csvRows (text : String) : List (List String) :=
  ((splitLinesJS text.toList).filter (fun l => !(trimL l).isEmpty)).map
    (fun l => (l.splitOn ',').map (fun c => String.mk (trimL (stripQuotes c))))

/-- Amount-column choice of `parseCSV`: the first lower-cased header
matching `/amount|debit|credit|balance/`, else column 1. -/
def findAmtIdx (header : List String) : Nat :=
  match header.findIdx? (fun h =>
      strIncludes (strLower h) "amount" || strIncludes (strLower h) "debit" ||
      strIncludes (strLower h) "credit" || strIncludes (strLower h) "balance") with
  | some i => i
  | none => 1

/-- `out[name] = (out[name] || 0) + v` on a JS object modelled as an
association list (first-insertion position preserved). -/
def upsertAdd : List (String × Int) → String → Int → List (String × Int)
  | [], k, v => [(k, v)]
  | (k₁, v₁) :: t, k, v =>
    if k₁ = k then (k₁, v₁ + v) :: t else (k₁, v₁) :: upsertAdd t k v

/-- Key/value a loop body contributes for one row: skip when the key is
empty or the value is absent. -/
def mkRowKV {α : Type} (keyFn : α → String) (valFn : α → Option Int) (r : α) :
    Option (String × Int) :=
  let name := keyFn r
  if name = "" then none else (valFn r).map (fun v => (name, v))

/-- Accumulate row contributions into the output object. -/
def accumKV {α : Type} (g : α → Option (String × Int)) (l : List α) :
    List (String × Int) :=
  l.foldl (fun out r =>
    match g r with
    | none => out
    | some p => upsertAdd out p.1 p.2) []

/-- Row handling of the `parseCSV` loop: `name` is the trimmed column-0
cell, the amount is `Number` of the de-comma'd amount cell; rows with an
empty name or a `NaN` amount are skipped. -/
def rowKV (num : String → Option Int) (amtIdx : Nat) : List String → Option (String × Int) :=
  mkRowKV (fun r => jsTrim (r.getD 0 ""))
    (fun r => num (stripNumJunk (r.getD amtIdx "")))

/-- `parseCSV` of `netlify/readTrialBalances.js`. -/
def parseCSV (num : String → Option Int) (text : String) : List (String × Int) :=
  let rows := csvRows text
  accumKV (rowKV num (findAmtIdx (rows.headD []))) (rows.drop 1)

/-- A spreadsheet cell as delivered by `sheet_to_json(ws, {header: 1,
raw: true})`: a number, a string, or a hole (`undefined`). -/
inductive XCell where
  | cnum (n : Int)
  | cstr (s : String)
  | cnone
  deriving DecidableEq, Repr

/-- The numeric-or-numeric-like test of the `parseXLSX` column scan:
`typeof v === "number"`, or a string that is non-blank and whose
de-comma'd form is not `NaN` under `Number`. -/
def numericish (num : String → Option Int) : XCell → Bool
  | .cnum _ => true
  | .cstr s => !(jsTrim s).isEmpty && (num (stripNumJunk s)).isSome
  | .cnone => false

/-- Count of numeric-or-numeric-like cells of column `c` over the data
rows (rows 1 and later). -/
def colScore (num : String → Option Int) (rows : List (List XCell)) (c : Nat) : Nat :=
  ((rows.drop 1).map (fun r => if numericish num (r.getD c .cnone) then 1 else 0)).sum

/-- One step of the running-best scan:
`if (score > bestScore) { bestScore = score; amtIdx = c; }`. -/
def selStep (f : Nat → Nat) (st : Nat × Int) (c : Nat) : Nat × Int :=
  if st.2 < (f c : Int) then (c, (f c : Int)) else st

/-- Amount-column choice of `parseXLSX`: scan columns `c = 1` to
`maxCols - 1` (with `maxCols = min(5, rows[0].length)`) keeping the first
column whose score strictly exceeds the running best, starting from
`amtIdx = 1`, `bestScore = -1`. -/
def chooseAmtIdx (num : String → Option Int) (rows : List (List XCell)) : Nat :=
  let maxCols := min 5 (rows.headD []).length
  ((List.range' 1 (maxCols - 1)).foldl (selStep (colScore num rows)) (1, (-1 : Int))).1

/-- `(v ?? "").toString()` for a cell. -/
def cellNameStr : XCell → String
  | .cnum n => toString n
  | .cstr s => s
  | .cnone => ""

/-- Row handling of the `parseXLSX` loop: the name is the trimmed
stringification of column 0; a string amount goes through `Number` after
de-comma'ing; a non-number (hole, or `NaN`) is skipped. -/
def rowKVX (num : String → Option Int) (amtIdx : Nat) : List XCell → Option (String × Int) :=
  mkRowKV (fun r => jsTrim (cellNameStr (r.getD 0 .cnone)))
    (fun r =>
      match r.getD amtIdx .cnone with
      | .cnum n => some n
      | .cstr s => num (stripNumJunk s)
      | .cnone => none)

/-- `parseXLSX` of `netlify/readTrialBalances.js` (the XLSX workbook
reader is external; `rows` is what `sheet_to_json` returns). -/
def parseXLSX (num : String → Option Int) (rows : List (List XCell)) : List (String × Int) :=
  if rows.isEmpty then []
  else accumKV (rowKVX num (chooseAmtIdx num rows)) (rows.drop 1)

/-! #### Accumulation lemmas -/

theorem lookup_upsertAdd (m : List (String × Int)) (k' : String) (v : Int) (k : String) :
    List.lookup k (upsertAdd m k' v) =
      if k = k' then some ((List.lookup k m).getD 0 + v) else List.lookup k m := by
  induction m with
  | nil =>
    by_cases h : k = k'
    · subst h; simp [upsertAdd, List.lookup]
    · have hb : (k == k') = false := beq_eq_false_iff_ne.mpr h
      simp [upsertAdd, List.lookup, hb, h]
  | cons p t ih =>
    obtain ⟨k₁, v₁⟩ := p
    by_cases h1 : k₁ = k'
    · subst h1
      by_cases h2 : k = k₁
      · subst h2; simp [upsertAdd, List.lookup]
      · have hb : (k == k₁) = false := beq_eq_false_iff_ne.mpr h2
        simp [upsertAdd, List.lookup, hb, h2]
    · by_cases h2 : k = k₁
      · subst h2
        simp [upsertAdd, List.lookup, h1]
      · have hb : (k == k₁) = false := beq_eq_false_iff_ne.mpr h2
        simp [upsertAdd, List.lookup, h1, hb, ih]

theorem lookup_foldl_upsertAdd (kvs : List (String × Int)) :
    ∀ (m : List (String × Int)) (k : String),
      List.lookup k (kvs.foldl (fun out p => upsertAdd out p.1 p.2) m) =
        (if ((kvs.filter (fun p => p.1 == k)).map Prod.snd).isEmpty then List.lookup k m
         else some ((List.lookup k m).getD 0 +
           ((kvs.filter (fun p => p.1 == k)).map Prod.snd).sum)) := by
  induction kvs with
  | nil => intro m k; simp
  | cons p kvs ih =>
    intro m k
    obtain ⟨k₀, v₀⟩ := p
    have step : (((k₀, v₀) :: kvs).foldl (fun out p => upsertAdd out p.1 p.2) m) =
        kvs.foldl (fun out p => upsertAdd out p.1 p.2) (upsertAdd m k₀ v₀) := rfl
    rw [step, ih]
    by_cases h : k₀ = k
    · subst h
      have hl : List.lookup k₀ (upsertAdd m k₀ v₀) =
          some ((List.lookup k₀ m).getD 0 + v₀) := by
        rw [lookup_upsertAdd]; simp
      rw [hl]
      by_cases he : ((kvs.filter (fun p => p.1 == k₀)).map Prod.snd).isEmpty
      · rw [List.isEmpty_iff] at he
        simp [List.filter_cons, he]
      · rw [if_neg he]
        have hff : (((k₀, v₀) :: kvs).filter (fun p => p.1 == k₀)) =
            (k₀, v₀) :: kvs.filter (fun p => p.1 == k₀) := by
          simp [List.filter_cons]
        rw [hff]
        simp [add_assoc]
    · have hne : (k₀ == k) = false := beq_eq_false_iff_ne.mpr h
      have hl : List.lookup k (upsertAdd m k₀ v₀) = List.lookup k m := by
        rw [lookup_upsertAdd, if_neg (fun hc => h hc.symm)]
      rw [hl]
      have hff : (((k₀, v₀) :: kvs).filter (fun p => p.1 == k)) =
          kvs.filter (fun p => p.1 == k) := by
        simp [List.filter_cons, hne]
      rw [hff]

theorem lookup_accumKV {α : Type} (g : α → Option (String × Int)) (l : List α) (k : String) :
    List.lookup k (accumKV g l) =
      (if (((l.filterMap g).filter (fun p => p.1 == k)).map Prod.snd).isEmpty then none
       else some ((((l.filterMap g).filter (fun p => p.1 == k)).map Prod.snd).sum)) := by
  have skip : ∀ (m : List (String × Int)),
      l.foldl (fun out r =>
        match g r with
        | none => out
        | some p => upsertAdd out p.1 p.2) m =
      (l.filterMap g).foldl (fun out p => upsertAdd out p.1 p.2) m := by
    induction l with
    | nil => intro m; simp
    | cons r t ih =>
      intro m
      cases hg : g r <;> simp [List.filterMap_cons, hg, ih]
  unfold accumKV
  rw [skip, lookup_foldl_upsertAdd]
  simp

theorem filterMap_mkRowKV {α : Type} (keyFn : α → String) (valFn : α → Option Int)
    (name : String) (hname : name ≠ "") (l : List α) :
    ((l.filterMap (mkRowKV keyFn valFn)).filter (fun p => p.1 == name)).map Prod.snd =
      l.filterMap (fun r => if keyFn r = name then valFn r else none) := by
  induction l with
  | nil => simp
  | cons r t ih =>
    by_cases h0 : keyFn r = ""
    · have hne : ¬("" = name) := fun hc => hname hc.symm
      simp [List.filterMap_cons, mkRowKV, h0, hne, ih]
    · by_cases h1 : keyFn r = name
      · cases hv : valFn r <;>
          simp [List.filterMap_cons, mkRowKV, h0, hv, h1, hname, ih]
      · have hb : (keyFn r == name) = false := beq_eq_false_iff_ne.mpr h1
        cases hv : valFn r <;>
          simp [List.filterMap_cons, mkRowKV, h0, hv, h1, hb, ih]

/-- Lookup in an accumulated map is the sum of the per-row contributions
for that key, `none` when no row contributes. -/
theorem lookup_accum_mkRowKV {α : Type} (keyFn : α → String) (valFn : α → Option Int)
    (name : String) (hname : name ≠ "") (l : List α) :
    List.lookup name (accumKV (mkRowKV keyFn valFn) l) =
      (if (l.filterMap (fun r => if keyFn r = name then valFn r else none)).isEmpty then none
       else some ((l.filterMap (fun r => if keyFn r = name then valFn r else none)).sum)) := by
  rw [lookup_accumKV, filterMap_mkRowKV keyFn valFn name hname]

/-! #### Concrete instances of the JS numeric primitives (for witnesses) -/

/-- Digit-string value. -/
def digitsVal (l : List Char) : Nat :=
  l.foldl (fun a c => a * 10 + (c.toNat - 48)) 0

/-- Signed decimal-integer literal parsing shared by the concrete `Number`
and `parseFloat` models. -/
def parseIntCore : List Char → Option Int
  | [] => none
  | '-' :: t =>
    if !t.isEmpty && t.all Char.isDigit then some (-(digitsVal t : Int)) else none
  | '+' :: t =>
    if !t.isEmpty && t.all Char.isDigit then some (digitsVal t : Int) else none
  | l => if l.all Char.isDigit then some (digitsVal l : Int) else none

/-- Models the JS `Number` primitive on trimmed integer literals
(`Number("") = 0`, `NaN` is `none`); only used to instantiate the
`num` oracle of the parsers at witness inputs. -/
def jsNumber (s : String) : Option Int :=
  let t := trimL s.toList
  if t.isEmpty then some 0 else parseIntCore t

/-- Models the JS `parseFloat` primitive on integer literals
(`parseFloat("") = NaN`); only used to instantiate the `pf` oracle at
counterexample inputs. -/
def jsParseFloat (s : String) : Option Int :=
  parseIntCore (s.toList.dropWhile isJsWs)

/-! #### C5 -/

/-- The numeric values contributed for account `name` by the data rows of
a CSV source: one per occurrence of the (trimmed) name whose amount cell
parses as numeric. -/
def csvContribs (num : String → Option Int) (name : String) (text : String) : List Int :=
  ((csvRows text).drop 1).filterMap (fun r =>
    if jsTrim (r.getD 0 "") = name then
      num (stripNumJunk (r.getD (findAmtIdx ((csvRows text).headD [])) ""))
    else none)

/-- The numeric values contributed for account `name` by the data rows of
an XLSX source. -/
def xlsxContribs (num : String → Option Int) (name : String) (rows : List (List XCell)) :
    List Int :=
  (rows.drop 1).filterMap (fun r =>
    if jsTrim (cellNameStr (r.getD 0 .cnone)) = name then
      (match r.getD (chooseAmtIdx num rows) .cnone with
       | .cnum n => some n
       | .cstr s => num (stripNumJunk s)
       | .cnone => none)
    else none)

/-- C5 (amended, positive half): in `netlify/readTrialBalances.js`, for
every source and non-empty account name, both `parseCSV` and `parseXLSX`
map the (trimmed) name to the sum of the numeric values of all its
occurrences; occurrences whose value does not parse as numeric (after
stripping commas and spaces) are excluded from the sum without any
error. -/
theorem readTrialBalances_accumulates (num : String → Option Int) (name : String)
    (hname : name ≠ "") :
    (∀ text : String,
      List.lookup name (parseCSV num text) =
        if csvContribs num name text = [] then none
        else some (csvContribs num name text).sum) ∧
    (∀ rows : List (List XCell),
      List.lookup name (parseXLSX num rows) =
        if xlsxContribs num name rows = [] then none
        else some (xlsxContribs num name rows).sum) := by
  constructor
  · intro text
    unfold parseCSV rowKV
    rw [lookup_accum_mkRowKV _ _ name hname]
    simp [csvContribs, List.isEmpty_iff]
  · intro rows
    unfold parseXLSX
    by_cases hrows : rows.isEmpty
    · rw [List.isEmpty_iff] at hrows
      subst hrows
      simp [accumKV, List.lookup, xlsxContribs]
    · rw [if_neg (by simp [hrows])]
      unfold rowKVX
      rw [lookup_accum_mkRowKV _ _ name hname]
      simp [xlsxContribs, List.isEmpty_iff]

/-- C5 witness: the spec's 2-row CSV scenario — `"Account,Amount\nCash,100\nCash,50"`
yields `Cash ↦ 150` (duplicate rows sum). -/
theorem readTrialBalances_accumulates_witness :
    List.lookup "Cash" (parseCSV jsNumber "Account,Amount\nCash,100\nCash,50") = some 150 :=
  (((readTrialBalances_accumulates jsNumber "Cash" (by decide)).1)
    "Account,Amount\nCash,100\nCash,50").trans (by decide)

/-! #### `netlify/functions/parseTrialBalances.js` — `toKeyValue`

`sheet_to_json(ws, {defval: ""})` returns row objects keyed by header
names; a row object is modelled as an association list of
column-name/cell pairs. -/

/-- `v || d` where the final fallback is itself possibly absent
(`columns.find(...) || columns[0]`). -/
def jsOrOpt (v : Option String) (d : Option String) : Option String :=
  match v with
  | some s => if s = "" then d else some s
  | none => d

/-- `Object.keys(rows[0])`, or `[]` for no rows. -/
def colsOf (rows : List (List (String × XCell))) : List String :=
  match rows with
  | [] => []
  | r :: _ => r.map Prod.fst

/-- `r[c]` for a possibly-absent column name (`.cnone` = `undefined`). -/
def getCellByCol (r : List (String × XCell)) (c : Option String) : XCell :=
  match c with
  | some cn => (List.lookup cn r).getD .cnone
  | none => .cnone

/-- `v || ""` on a cell (the number `0`, the empty string and
`undefined` are falsy). -/
def cellOrEmptyStr (v : XCell) : XCell :=
  match v with
  | .cnum n => if n = 0 then .cstr "" else .cnum n
  | .cstr s => .cstr s
  | .cnone => .cstr ""

/-- `String(v)`. -/
def cellToStr : XCell → String
  | .cnum n => toString n
  | .cstr s => s
  | .cnone => "undefined"

/-- `out[key] = v` (plain overwrite) on a JS object modelled as an
association list. -/
def setKV : List (String × Int) → String → Int → List (String × Int)
  | [], k, v => [(k, v)]
  | (k₁, v₁) :: t, k, v =>
    if k₁ = k then (k₁, v) :: t else (k₁, v₁) :: setKV t k v

/-- `toKeyValue` of `parseTrialBalances.js`: note `out[key] = isNaN(val)
? 0 : val` — a later occurrence of a key OVERWRITES the earlier one, and
a non-numeric value is stored as `0`, not skipped.  `pf` is the
`parseFloat` oracle. -/
def toKeyValue (pf : String → Option Int) (rows : List (List (String × XCell))) :
    List (String × Int) :=
  let cols := colsOf rows
  let accountCol := jsOrOpt (cols.find? (fun c => includesCI c "account")) (cols.get? 0)
  let amountCol := jsOrOpt (cols.find? (fun c =>
    includesCI c "amount" || includesCI c "balance" || includesCI c "value" ||
    includesCI c "debit" || includesCI c "credit")) (cols.get? 1)
  rows.foldl (fun out r =>
    let key := jsTrim (cellToStr (cellOrEmptyStr (getCellByCol r accountCol)))
    let val : Option Int :=
      match getCellByCol r amountCol with
      | .cnum n => some n
      | v => pf (stripNumJunk (cellToStr v))
    if key = "" then out else setKV out key (val.getD 0)) []

/-- C5 counterexample: `toKeyValue` (parseTrialBalances.js, also cited by
the claim) does NOT sum duplicate account names — on a source with rows
`Cash ↦ "100"` and `Cash ↦ "50"` it returns `Cash ↦ 50`, the value of the
last occurrence, not the sum `150`. -/
theorem toKeyValue_overwrites_counterexample :
    toKeyValue jsParseFloat
        [[("Account", .cstr "Cash"), ("Amount", .cstr "100")],
         [("Account", .cstr "Cash"), ("Amount", .cstr "50")]] = [("Cash", 50)] ∧
    List.lookup "Cash" (toKeyValue jsParseFloat
        [[("Account", .cstr "Cash"), ("Amount", .cstr "100")],
         [("Account", .cstr "Cash"), ("Amount", .cstr "50")]]) ≠ some (100 + 50) := by
  constructor
  · decide
  · decide

/-! #### C8 — the `parseXLSX` amount-column scan -/

/-- Invariant of the running-best scan `selStep` over a strictly
increasing candidate list: the result's score bounds every candidate's
score, the result is either the initial state or a candidate achieving
its own score and strictly beating the initial score, and on score ties
the earliest index wins. -/
theorem selScan_spec (f : Nat → Nat) :
    ∀ (cs : List Nat) (init : Nat × Int),
      List.Pairwise (· < ·) cs → (∀ c ∈ cs, init.1 ≤ c) →
      init.2 ≤ (cs.foldl (selStep f) init).2 ∧
      (∀ c ∈ cs, (f c : Int) ≤ (cs.foldl (selStep f) init).2) ∧
      (cs.foldl (selStep f) init = init ∨
        ((cs.foldl (selStep f) init).1 ∈ cs ∧
         (cs.foldl (selStep f) init).2 = (f (cs.foldl (selStep f) init).1 : Int) ∧
         init.2 < (cs.foldl (selStep f) init).2)) ∧
      (∀ c ∈ cs, (f c : Int) = (cs.foldl (selStep f) init).2 →
        (cs.foldl (selStep f) init).1 ≤ c) := by
  intro cs
  induction cs with
  | nil =>
    intro init _ _
    exact ⟨le_refl _, by simp, Or.inl rfl, by simp⟩
  | cons c t ih =>
    intro init hpair hle
    have hct : ∀ x ∈ t, c < x := (List.pairwise_cons.mp hpair).1
    have hpt : List.Pairwise (· < ·) t := (List.pairwise_cons.mp hpair).2
    by_cases h : init.2 < (f c : Int)
    · have hstep : (c :: t).foldl (selStep f) init = t.foldl (selStep f) (c, (f c : Int)) := by
        simp [List.foldl_cons, selStep, h]
      obtain ⟨i1, i2, i3, i4⟩ :=
        ih (c, (f c : Int)) hpt (fun x hx => le_of_lt (hct x hx))
      rw [hstep]
      refine ⟨le_trans (le_of_lt h) i1, ?_, ?_, ?_⟩
      · intro x hx
        rcases List.mem_cons.mp hx with hx | hx
        · subst hx; exact i1
        · exact i2 x hx
      · rcases i3 with h3 | ⟨h3a, h3b, h3c⟩
        · exact Or.inr ⟨by rw [h3]; exact List.mem_cons_self c t, by rw [h3], by rw [h3]; exact h⟩
        · exact Or.inr ⟨List.mem_cons_of_mem c h3a, h3b, lt_trans h h3c⟩
      · intro x hx hfx
        rcases List.mem_cons.mp hx with hx | hx
        · subst hx
          rcases i3 with h3 | ⟨_, _, h3c⟩
          · rw [h3]
          · have h3c2 : ((f x : Int)) < (List.foldl (selStep f) (x, ((f x : Int))) t).2 := h3c
            exact absurd h3c2 (not_lt.mpr (le_of_eq hfx.symm))
        · exact i4 x hx hfx
    · have hstep : (c :: t).foldl (selStep f) init = t.foldl (selStep f) init := by
        simp [List.foldl_cons, selStep, h]
      have hlet : ∀ x ∈ t, init.1 ≤ x := fun x hx => hle x (List.mem_cons_of_mem c hx)
      obtain ⟨i1, i2, i3, i4⟩ := ih init hpt hlet
      rw [hstep]
      refine ⟨i1, ?_, ?_, ?_⟩
      · intro x hx
        rcases List.mem_cons.mp hx with hx | hx
        · subst hx; exact le_trans (le_of_not_lt h) i1
        · exact i2 x hx
      · rcases i3 with h3 | ⟨h3a, h3b, h3c⟩
        · exact Or.inl h3
        · exact Or.inr ⟨List.mem_cons_of_mem c h3a, h3b, h3c⟩
      · intro x hx hfx
        rcases List.mem_cons.mp hx with hx | hx
        · subst hx
          rcases i3 with h3 | ⟨_, _, h3c⟩
          · rw [h3]; exact hle x (List.mem_cons_self x t)
          · have h3c2 : init.2 < (List.foldl (selStep f) init t).2 := h3c
            have h4 : init.2 < ((f x : Int)) := by rw [hfx]; exact h3c2
            exact absurd h4 h
        · exact i4 x hx hfx

/-- C8 (amended): the amount column chosen by `parseXLSX` is the column
with the highest count of numeric-or-numeric-like values among the data
rows — but among the candidate columns `1 … min(5, header width) − 1`
only (column 0 is never scanned), with ties broken in favour of the
lowest candidate index because the running-best comparison uses strict
`>`; when there are no candidate columns the choice defaults to 1. -/
theorem chooseAmtIdx_argmax (num : String → Option Int) (rows : List (List XCell)) :
    (∀ c ∈ List.range' 1 (min 5 (rows.headD []).length - 1),
      colScore num rows c ≤ colScore num rows (chooseAmtIdx num rows)) ∧
    (List.range' 1 (min 5 (rows.headD []).length - 1) ≠ [] →
      chooseAmtIdx num rows ∈ List.range' 1 (min 5 (rows.headD []).length - 1)) ∧
    (∀ c ∈ List.range' 1 (min 5 (rows.headD []).length - 1),
      colScore num rows c = colScore num rows (chooseAmtIdx num rows) →
      chooseAmtIdx num rows ≤ c) ∧
    (List.range' 1 (min 5 (rows.headD []).length - 1) = [] →
      chooseAmtIdx num rows = 1) := by
  set f := colScore num rows with hf
  set cands := List.range' 1 (min 5 (rows.headD []).length - 1) with hcands
  have hpair : List.Pairwise (· < ·) cands := List.pairwise_lt_range' _ _
  have hle : ∀ c ∈ cands, (1, (-1 : Int)).1 ≤ c := by
    intro c hc
    exact (List.mem_range'_1.mp (hcands ▸ hc)).1
  obtain ⟨_, i2, i3, i4⟩ := selScan_spec f cands (1, (-1 : Int)) hpair hle
  have hchoose : chooseAmtIdx num rows = (cands.foldl (selStep f) (1, (-1 : Int))).1 := by
    rfl
  rcases i3 with h3 | ⟨h3a, h3b, _⟩
  · -- the scan never moved: only possible when there are no candidates,
    -- since every score is ≥ 0 > -1
    have hnil : cands = [] := by
      by_contra hne
      obtain ⟨c0, hc0⟩ := List.exists_mem_of_ne_nil cands hne
      have := i2 c0 hc0
      rw [h3] at this
      exact absurd (lt_of_lt_of_le (by norm_num : (-1 : Int) < 0) (by positivity)) (not_lt.mpr this)
    refine ⟨?_, ?_, ?_, ?_⟩
    · intro c hc; rw [hnil] at hc; exact absurd hc (List.not_mem_nil c)
    · intro hne; exact absurd hnil hne
    · intro c hc; rw [hnil] at hc; exact absurd hc (List.not_mem_nil c)
    · intro _; rw [hchoose, h3]
  · refine ⟨?_, ?_, ?_, ?_⟩
    · intro c hc
      have := i2 c hc
      rw [h3b] at this
      rw [hchoose]
      exact_mod_cast this
    · intro _; rw [hchoose]; exact h3a
    · intro c hc hscore
      rw [hchoose]
      refine i4 c hc ?_
      rw [h3b, ← hchoose, ← hscore]
    · intro hnil; rw [hnil] at h3a; exact absurd h3a (List.not_mem_nil _)

/-- Modelled from the spec's words: "the amount column is the column
(among the first five) with the highest count of numeric-or-numeric-like
values among data rows — ties broken by lowest column index": the same
running-best scan, but over ALL columns `0 … min(5, width) − 1`. -/
def specAmountColumnFirstFive (num : String → Option Int) (rows : List (List XCell)) : Nat :=
  ((List.range (min 5 (rows.headD []).length)).foldl
    (selStep (colScore num rows)) (0, (-1 : Int))).1

/-- C8 counterexample: on a sheet whose column 0 holds the most
numeric-looking data cells, the claimed "highest count among the first
five columns" rule picks column 0, but `parseXLSX` picks column 1 — the
scan starts at `c = 1` and never considers column 0. -/
theorem chooseAmtIdx_counterexample :
    chooseAmtIdx jsNumber
        [[.cstr "h0", .cstr "h1"], [.cnum 1, .cstr "x"], [.cnum 2, .cstr "y"]] = 1 ∧
    specAmountColumnFirstFive jsNumber
        [[.cstr "h0", .cstr "h1"], [.cnum 1, .cstr "x"], [.cnum 2, .cstr "y"]] = 0 ∧
    colScore jsNumber
        [[.cstr "h0", .cstr "h1"], [.cnum 1, .cstr "x"], [.cnum 2, .cstr "y"]] 0 = 2 ∧
    colScore jsNumber
        [[.cstr "h0", .cstr "h1"], [.cnum 1, .cstr "x"], [.cnum 2, .cstr "y"]] 1 = 0 ∧
    (1 : Nat) ≠ 0 := by
  refine ⟨by decide, by decide, by decide, by decide, by decide⟩

theorem chooseAmtIdx_argmax_witness :
    chooseAmtIdx jsNumber
        [[.cstr "name", .cstr "amt", .cstr "note"],
         [.cstr "Cash", .cstr "100", .cstr "x"],
         [.cstr "Rent", .cstr "50", .cstr "y"]] ∈ List.range' 1 (min 5 3 - 1) :=
  (chooseAmtIdx_argmax jsNumber
      [[.cstr "name", .cstr "amt", .cstr "note"],
       [.cstr "Cash", .cstr "100", .cstr "x"],
       [.cstr "Rent", .cstr "50", .cstr "y"]]).2.1 (by decide)

/-! ### `netlify/functions/generateStatements.js` — attachment loop and size guard -/

/-- `s.endsWith(suffix)`. -/
def strEndsWith (s suffix : String) : Bool :=
  suffix.toList.isSuffixOf s.toList

/-- `x || d` on plain strings (empty string is falsy). -/
def jsOrStr (s d : String) : String :=
  if s = "" then d else s

def pdfMime : String := "application/pdf"

def imgMimes : List String := ["image/png", "image/jpeg"]

def xlsMimes : List String :=
  ["application/vnd.ms-excel",
   "application/vnd.openxmlformats-officedocument.spreadsheetml.sheet"]

def txtMimes : List String := ["text/plain", "text/csv", "application/csv"]

/-- `guessMime` of `generateStatements.js`. -/
def guessMime (name : String) : String :=
  let n := strLower name
  if strEndsWith n ".pdf" then pdfMime
  else if strEndsWith n ".png" then "image/png"
  else if strEndsWith n ".jpg" || strEndsWith n ".jpeg" then "image/jpeg"
  else if strEndsWith n ".xls" then "application/vnd.ms-excel"
  else if strEndsWith n ".xlsx" then
    "application/vnd.openxmlformats-officedocument.spreadsheetml.sheet"
  else if strEndsWith n ".csv" then "text/csv"
  else if strEndsWith n ".txt" then "text/plain"
  else ""

/-- `buildPrompt` of `generateStatements.js`. -/
def buildPrompt (framework companyName notes : String) : String :=
  jsTrim ("\nYou are an expert " ++ framework ++ " reporting assistant.\n" ++
    "Use the uploaded prior-year report (PDF/images) and the current-year trial balance (CSV/text)\n" ++
    "to draft current-year financial statements for \"" ++
    jsOrStr companyName "the company" ++ "\".\n\nDeliver:\n" ++
    "1) Income Statement (with prior-year comparative)\n" ++
    "2) Balance Sheet (with prior-year comparative)\n" ++
    "3) Draft accounting policies\n" ++
    "4) Key notes (revenue, leases, instruments, PPE/intangibles)\n" ++
    "5) List missing/uncertain disclosures to confirm with management\n\n" ++
    "User notes:\n" ++ jsOrStr notes "(none)" ++ "  \n")

/-- One uploaded file entry of the request body (`none` fields model
absent / non-string JSON values). -/
structure GSFile where
  name : Option String
  mimeType : Option String
  base64 : Option String
  deriving DecidableEq, Repr

/-- Models `base64.replace(/^data:[^;]+;base64,/, "")`: the prefix needs
`data:`, then at least one non-`;` character, then `;base64,`. -/
def stripDataUrlPfx (s : String) : String :=
  let l := s.toList
  if ("data:".toList).isPrefixOf l then
    let rest := l.drop 5
    let mid := rest.takeWhile (fun c => !(c == ';'))
    let tl := rest.drop mid.length
    if !mid.isEmpty && ((";base64,".toList).isPrefixOf tl) then String.mk (tl.drop 8)
    else s
  else s

/-- Models `.replace(/\s+/g, "")`. -/
def stripWsAll (s : String) : String :=
  String.mk (s.toList.filter (fun c => !isJsWs c))

/-- The cleaning applied to each file's base64 payload. -/
def cleanBase64 (s : String) : String :=
  stripWsAll (stripDataUrlPfx s)

/-- `Math.round(len * 3 / 4)` for a natural `len` (exact: ties round
up). -/
def approxBytes (len : Nat) : Nat :=
  (3 * len + 2) / 4

/-- The `10 * 1024 * 1024` transport ceiling. -/
def sizeLimit : Nat := 10 * 1024 * 1024

/-- A prompt part: instruction/extracted text, or inline binary data
(kept in base64 transport form, as in the source). -/
inductive GSPart where
  | textPart (s : String)
  | inlineData (mimeType data : String)
  deriving DecidableEq, Repr

/-- The 400-rejection causes of the file loop. -/
inductive GSErr where
  | missingBase64 (name : String)
  | tooLarge (totalBytes : Nat)
  | noSheets (name : String)
  | emptySheet (name : String)
  | emptyText (name : String)
  | unsupported (name mime : String)
  | thrown (msg : String)
  deriving DecidableEq, Repr

/-- What `XLSX.read` + `sheet_to_csv` can come back with for a payload:
an exception, a workbook with no sheet, or the first sheet as CSV text. -/
inductive XlsxRes where
  | xlsxThrow (msg : String)
  | xlsxNoSheet
  | xlsxCsv (csv : String)
  deriving DecidableEq, Repr

/-- The external collaborators of the file loop: the XLSX library (fed
the cleaned base64 payload) and UTF-8 decoding of a byte buffer. -/
structure GSExt where
  xlsx : String → XlsxRes
  utf8 : List Nat → String

/-- The body of the file loop for one (truthy) file: either a
400-rejection cause or the updated `(parts, totalBytes)` state.  Note the
size check runs after the running total is bumped and before any part is
pushed. -/
def gsFileStep (ext : GSExt) (f : GSFile) (parts : List GSPart) (total : Nat) :
    Except GSErr (List GSPart × Nat) :=
  let name := jsOr f.name "unnamed"
  let mime := jsOr f.mimeType (guessMime name)
  let b := f.base64.getD ""
  if b = "" then .error (.missingBase64 name)
  else
    let cb := cleanBase64 b
    let total2 := total + approxBytes cb.length
    if sizeLimit < total2 then .error (.tooLarge total2)
    else if mime = pdfMime || imgMimes.contains mime then
      .ok (parts ++ [.inlineData mime cb], total2)
    else if xlsMimes.contains mime then
      match ext.xlsx cb with
      | .xlsxThrow msg => .error (.thrown msg)
      | .xlsxNoSheet => .error (.noSheets name)
      | .xlsxCsv csv =>
        if jsTrim csv = "" then .error (.emptySheet name)
        else .ok (parts ++ [.textPart ("TRIAL BALANCE CSV (" ++ name ++ "):\n" ++ csv)], total2)
    else if txtMimes.contains mime then
      let text := ext.utf8 (b64decode cb)
      if jsTrim text = "" then .error (.emptyText name)
      else .ok (parts ++ [.textPart ("TRIAL BALANCE TEXT (" ++ name ++ "):\n" ++ text)], total2)
    else .error (.unsupported name mime)

/-- The `for (const f of files)` loop (`none` entries model falsy array
elements, skipped by `if (!f) continue`). -/
def gsLoop (ext : GSExt) : List (Option GSFile) → List GSPart × Nat →
    Except GSErr (List GSPart × Nat)
  | [], s => .ok s
  | none :: fs, s => gsLoop ext fs s
  | some f :: fs, s =>
    match gsFileStep ext f s.1 s.2 with
    | .error e => .error e
    | .ok s2 => gsLoop ext fs s2

/-- The handler's file-processing stage: the prompt part first, then the
loop from a zero running total. -/
def generateStatementsParts (ext : GSExt) (framework companyName notes : String)
    (files : List (Option GSFile)) : Except GSErr (List GSPart × Nat) :=
  gsLoop ext files ([.textPart (buildPrompt framework companyName notes)], 0)

/-- `(totalBytes/1024/1024).toFixed(2)`, computed by exact rational
rounding (agrees with the double computation at the inputs used here). -/
def fmtMB (tb : Nat) : String :=
  let c := (tb * 100 + 524288) / 1048576
  toString (c / 100) ++ "." ++
    (if c % 100 < 10 then "0" ++ toString (c % 100) else toString (c % 100))

/-- The `(statusCode, error, details)` triple of the 400 response each
loop rejection produces.  Note the `tooLarge` message is built from the
accumulated byte total alone — no file name appears in it. -/
def gsErrResponse : GSErr → Nat × String × Option String
  | .missingBase64 name => (400, "Missing base64 for " ++ name, none)
  | .tooLarge tb =>
      (400, "Payload too large (~" ++ fmtMB tb ++ " MB).",
       some "Compress files or send fewer pages.")
  | .noSheets name => (400, "No sheets found in " ++ name, none)
  | .emptySheet name => (400, "Empty sheet in " ++ name, none)
  | .emptyText name => (400, "Empty text in " ++ name, none)
  | .unsupported name mime =>
      (400, "Unsupported type for " ++ name ++ ": " ++ jsOrStr mime "unknown",
       some "Use PDF/PNG/JPG for reports, XLS/XLSX/TXT/CSV for TB.")
  | .thrown msg => (400, "File handling failed", some msg)

/-- The loop processes the file list left to right and stops at the first
rejection. -/
theorem gsLoop_append (ext : GSExt) (xs : List (Option GSFile)) :
    ∀ (ys : List (Option GSFile)) (s : List GSPart × Nat),
      gsLoop ext (xs ++ ys) s =
        (match gsLoop ext xs s with
         | .error e => Except.error e
         | .ok s2 => gsLoop ext ys s2) := by
  induction xs with
  | nil => intro ys s; rfl
  | cons x xs ih =>
    intro ys s
    cases x with
    | none => exact ih ys s
    | some f =>
      cases h : gsFileStep ext f s.1 s.2 with
      | error e => simp [gsLoop, h]
      | ok s2 => simp [gsLoop, h, ih]

/-- C4 (amended): the size guard is evaluated incrementally per file.  If
processing a prefix of the file list succeeds with accumulated total `t`,
and the next file's approximate decoded size pushes `t` over the 10 MB
ceiling, the whole request is rejected with a sizing error carrying
exactly the accumulated total — whatever files follow (they are never
examined), and with no attachment part pushed for the crossing file or
any later file (the rejection discards the state before the crossing
file's dispatch branch runs). -/
theorem gs_sizeGuard (ext : GSExt) (pre : List (Option GSFile)) (f : GSFile)
    (post : List (Option GSFile)) (s0 : List GSPart × Nat) (parts : List GSPart) (t : Nat)
    (hpre : gsLoop ext pre s0 = .ok (parts, t))
    (hb : f.base64.getD "" ≠ "")
    (hcross : sizeLimit < t + approxBytes (cleanBase64 (f.base64.getD "")).length) :
    gsLoop ext (pre ++ some f :: post) s0 =
      .error (.tooLarge (t + approxBytes (cleanBase64 (f.base64.getD "")).length)) := by
  rw [gsLoop_append, hpre]
  show gsLoop ext (some f :: post) (parts, t) = _
  have hstep : gsFileStep ext f parts t =
      .error (.tooLarge (t + approxBytes (cleanBase64 (f.base64.getD "")).length)) := by
    unfold gsFileStep
    rw [if_neg hb, if_pos hcross]
  simp [gsLoop, hstep]

/-- A base64 payload of `n` letters `A` (used to build concrete
multi-megabyte bodies without enumerating their characters). -/
def repA (n : Nat) : String :=
  String.mk (List.replicate n 'A')

theorem repA_clean (n : Nat) : cleanBase64 (repA n) = repA n := by
  have hpre : (("data:".toList).isPrefixOf (List.replicate n 'A')) = false := by
    cases n with
    | zero => decide
    | succ m =>
      rw [List.replicate_succ, show "data:".toList = ['d', 'a', 't', 'a', ':'] from rfl]
      simp [List.isPrefixOf]
  have h1 : stripDataUrlPfx (repA n) = repA n := by
    unfold stripDataUrlPfx
    simp only [show (repA n).toList = List.replicate n 'A' from rfl, hpre]
    simp
  rw [cleanBase64, h1]
  unfold stripWsAll
  rw [show (repA n).toList = List.replicate n 'A' from rfl]
  rw [List.filter_replicate]
  simp [repA, isJsWs]

theorem repA_length (n : Nat) : (repA n).length = n := by
  simp [repA]

theorem repA_ne_empty (n : Nat) (h : 0 < n) : repA n ≠ "" := by
  intro hc
  have := congrArg String.length hc
  rw [repA_length] at this
  simp at this
  omega

theorem approxBytes_8M : approxBytes 8388608 = 6291456 := by
  unfold approxBytes
  norm_num

theorem gsFileStep_pdf (ext : GSExt) (parts : List GSPart) (total : Nat)
    (nm : String) (b : String) (hbne : b ≠ "")
    (hfit : ¬sizeLimit < total + approxBytes (cleanBase64 b).length) :
    gsFileStep ext ⟨some nm, some pdfMime, some b⟩ parts total =
      .ok (parts ++ [.inlineData pdfMime (cleanBase64 b)],
           total + approxBytes (cleanBase64 b).length) := by
  simp only [gsFileStep, Option.getD_some]
  rw [if_neg hbne, if_neg hfit, if_pos (by simp [jsOr, pdfMime])]
  simp [jsOr, pdfMime]

/-- The trivial instantiation of the external collaborators, used for
concrete evaluations. -/
def extTriv : GSExt :=
  { xlsx := fun _ => .xlsxNoSheet, utf8 := fun _ => "" }


/-- Unfolding one PDF/image file through the loop: the part is appended
and the running total bumped. -/
theorem gsLoop_pdf_cons (ext : GSExt) (nm b : String) (fs : List (Option GSFile))
    (parts : List GSPart) (total : Nat) (hb : b ≠ "")
    (hfit : ¬sizeLimit < total + approxBytes (cleanBase64 b).length) :
    gsLoop ext (some ⟨some nm, some pdfMime, some b⟩ :: fs) (parts, total) =
      gsLoop ext fs
        (parts ++ [.inlineData pdfMime (cleanBase64 b)],
         total + approxBytes (cleanBase64 b).length) := by
  have h := gsFileStep_pdf ext parts total nm b hb hfit
  show (match gsFileStep ext ⟨some nm, some pdfMime, some b⟩ parts total with
        | .error e => Except.error e
        | .ok s2 => gsLoop ext fs s2) = _
  rw [h]

/-- Two PDF files where the second crosses the ceiling: the loop rejects
with the accumulated total. -/
theorem gs_two_pdfs_reject (ext : GSExt) (n1 n2 b1 b2 : String)
    (hb1 : b1 ≠ "") (hb2 : b2 ≠ "")
    (hfit : ¬sizeLimit < 0 + approxBytes (cleanBase64 b1).length)
    (hcross : sizeLimit <
      0 + approxBytes (cleanBase64 b1).length + approxBytes (cleanBase64 b2).length) :
    gsLoop ext [some ⟨some n1, some pdfMime, some b1⟩,
                some ⟨some n2, some pdfMime, some b2⟩] ([], 0) =
      .error (.tooLarge
        (0 + approxBytes (cleanBase64 b1).length + approxBytes (cleanBase64 b2).length)) := by
  rw [show ([some ⟨some n1, some pdfMime, some b1⟩, some ⟨some n2, some pdfMime, some b2⟩] :
        List (Option GSFile)) =
      [some ⟨some n1, some pdfMime, some b1⟩] ++ some ⟨some n2, some pdfMime, some b2⟩ :: []
      from rfl]
  refine gs_sizeGuard ext _ _ _ _ ([] ++ [GSPart.inlineData pdfMime (cleanBase64 b1)])
    (0 + approxBytes (cleanBase64 b1).length) ?_ hb2 hcross
  rw [gsLoop_pdf_cons ext n1 b1 [] [] 0 hb1 hfit]
  rfl

/-- C4 counterexample: with two 8 MiB-of-base64 PDF files `a.pdf` and
`b.pdf` (≈ 6 MiB decoded each), the total crosses the ceiling at `b.pdf`
and the loop rejects with the accumulated total of 12582912 bytes — but
the 400 response (`"Payload too large (~12.00 MB)."` plus its fixed
details line) does not name `b.pdf` (nor any file), refuting "names
exactly that file". -/
theorem gs_sizeError_counterexample :
    gsLoop extTriv
        [some ⟨some "a.pdf", some pdfMime, some (repA 8388608)⟩,
         some ⟨some "b.pdf", some pdfMime, some (repA 8388608)⟩] ([], 0) =
      .error (.tooLarge 12582912) ∧
    gsErrResponse (.tooLarge 12582912) =
      (400, "Payload too large (~12.00 MB).", some "Compress files or send fewer pages.") ∧
    strIncludes "Payload too large (~12.00 MB)." "b.pdf" = false ∧
    strIncludes "Compress files or send fewer pages." "b.pdf" = false := by
  have happrox : approxBytes (cleanBase64 (repA 8388608)).length = 6291456 := by
    rw [repA_clean, repA_length]
    exact approxBytes_8M
  have h := gs_two_pdfs_reject extTriv "a.pdf" "b.pdf" (repA 8388608) (repA 8388608)
    (repA_ne_empty 8388608 (by norm_num)) (repA_ne_empty 8388608 (by norm_num))
    (by rw [happrox]; unfold sizeLimit; omega)
    (by rw [happrox]; unfold sizeLimit; omega)
  rw [happrox] at h
  rw [show (0 : Nat) + 6291456 + 6291456 = 12582912 from by norm_num] at h
  refine ⟨h, ?_, by decide, by decide⟩
  have hfmt : fmtMB 12582912 = "12.00" := by
    unfold fmtMB
    norm_num
    rfl
  show (400, "Payload too large (~" ++ fmtMB 12582912 ++ " MB).",
        some "Compress files or send fewer pages.") = _
  rw [hfmt]
  rfl

theorem gs_sizeGuard_witness :
    gsLoop extTriv [some ⟨some "big.pdf", some pdfMime, some (repA 14000000)⟩] ([], 0) =
      .error (.tooLarge 10500000) := by
  have happrox : approxBytes (cleanBase64 (repA 14000000)).length = 10500000 := by
    rw [repA_clean, repA_length]
    unfold approxBytes
    norm_num
  have hb : (⟨some "big.pdf", some pdfMime, some (repA 14000000)⟩ : GSFile).base64.getD "" ≠ "" :=
    repA_ne_empty 14000000 (by norm_num)
  have hcross : sizeLimit < 0 +
      approxBytes (cleanBase64
        ((⟨some "big.pdf", some pdfMime, some (repA 14000000)⟩ : GSFile).base64.getD "")).length := by
    rw [show ((⟨some "big.pdf", some pdfMime, some (repA 14000000)⟩ : GSFile).base64.getD "") =
        repA 14000000 from rfl]
    rw [happrox]
    unfold sizeLimit
    omega
  have h := gs_sizeGuard extTriv [] ⟨some "big.pdf", some pdfMime, some (repA 14000000)⟩
    [] ([], 0) [] 0 rfl hb hcross
  rw [show ((⟨some "big.pdf", some pdfMime, some (repA 14000000)⟩ : GSFile).base64.getD "") =
      repA 14000000 from rfl] at h
  rw [happrox] at h
  rw [show (0 : Nat) + 10500000 = 10500000 from by norm_num] at h
  exact h

/-! ### `netlify/functions/filingHistory.js` — accounts filter, sort, page (second variant) -/

/-- A raw filing-history item, restricted to the fields this handler
reads. -/
structure Filing6 where
  ftype : Option String
  description : Option String
  date : Option String
  deriving DecidableEq, Repr

/-- The filter of the handler: keep a filing when its `type` OR its
`description` (each guarded by truthiness) contains "accounts"
case-insensitively. -/
def accountsKeep (f : Filing6) : Bool :=
  (truthyStr f.ftype && strIncludes (strLower (jsOr f.ftype "")) "accounts") ||
  (truthyStr f.description && strIncludes (strLower (jsOr f.description "")) "accounts")

/-- The handler's shaping of `data.items`: filter, sort by date
descending (`new Date(b.date) - new Date(a.date)`; `dv` is the
date-parsing oracle), take the first 10.  JS `Array.prototype.sort` is
stable; insertion sort models it. -/
def filingHistory10 (dv : Option String → Int) (items : List Filing6) : List Filing6 :=
  (((items.filter accountsKeep).insertionSort (fun a b => dv b.date ≤ dv a.date)).take 10)

/-- C6 (amended): the handler returns only items of the input that pass
the type-OR-description "accounts" filter, sorted by date value
descending, at most 10 of them; and when at most 10 items pass the
filter, every passing item is returned. -/
theorem filingHistory10_spec (dv : Option String → Int) (items : List Filing6) :
    (∀ f ∈ filingHistory10 dv items, accountsKeep f = true ∧ f ∈ items) ∧
    (filingHistory10 dv items).length ≤ 10 ∧
    List.Sorted (fun a b => dv b.date ≤ dv a.date) (filingHistory10 dv items) ∧
    ((items.filter accountsKeep).length ≤ 10 →
      ∀ f ∈ items, accountsKeep f = true → f ∈ filingHistory10 dv items) := by
  haveI hTot : IsTotal Filing6 (fun a b => dv b.date ≤ dv a.date) :=
    ⟨fun a b => le_total (dv b.date) (dv a.date)⟩
  haveI hTrans : IsTrans Filing6 (fun a b => dv b.date ≤ dv a.date) :=
    ⟨fun _ _ _ hab hbc => le_trans hbc hab⟩
  refine ⟨?_, ?_, ?_, ?_⟩
  · intro f hf
    have hf2 : f ∈ (items.filter accountsKeep).insertionSort
        (fun a b => dv b.date ≤ dv a.date) :=
      (List.take_sublist _ _).subset hf
    have hf3 : f ∈ items.filter accountsKeep := (List.mem_insertionSort _).mp hf2
    have := List.mem_filter.mp hf3
    exact ⟨this.2, this.1⟩
  · unfold filingHistory10
    rw [List.length_take]
    exact min_le_left _ _
  · exact List.Pairwise.sublist (List.take_sublist _ _) (List.sorted_insertionSort _ _)
  · intro h10 f hf hacc
    have hflt : f ∈ items.filter accountsKeep := List.mem_filter.mpr ⟨hf, hacc⟩
    have hlen : ((items.filter accountsKeep).insertionSort
        (fun a b => dv b.date ≤ dv a.date)).length ≤ 10 := by
      rw [List.length_insertionSort]
      exact h10
    unfold filingHistory10
    rw [List.take_of_length_le hlen]
    exact (List.mem_insertionSort _).mpr hflt

/-- A constant date-parsing oracle (every date maps to 0), usable at
concrete inputs. -/
def dv0 : Option String → Int := fun _ => 0

/-- C6 counterexample: an item whose `type` is "accounts" but whose
`description` is "Change of director" is returned by the handler, yet its
description does not contain "accounts" — so the handler does NOT return
exactly the entries whose description contains "accounts". -/
theorem filingHistory10_counterexample :
    filingHistory10 dv0 [⟨some "accounts", some "Change of director", some "2023-02-01"⟩] =
      [⟨some "accounts", some "Change of director", some "2023-02-01"⟩] ∧
    strIncludes (strLower "Change of director") "accounts" = false := by
  constructor
  · decide
  · decide

/-- C6 witness, on the spec's two-item scenario: `Annual accounts`
(2023-01-01) and `Change of director` (2023-02-01) — only the first item
comes back. -/
theorem filingHistory10_spec_witness :
    (⟨none, some "Annual accounts", some "2023-01-01"⟩ : Filing6) ∈
      filingHistory10 dv0 [⟨none, some "Annual accounts", some "2023-01-01"⟩,
                           ⟨none, some "Change of director", some "2023-02-01"⟩] ∧
    filingHistory10 dv0 [⟨none, some "Annual accounts", some "2023-01-01"⟩,
                         ⟨none, some "Change of director", some "2023-02-01"⟩] =
      [⟨none, some "Annual accounts", some "2023-01-01"⟩] :=
  ⟨(filingHistory10_spec dv0 [⟨none, some "Annual accounts", some "2023-01-01"⟩,
      ⟨none, some "Change of director", some "2023-02-01"⟩]).2.2.2 (by decide)
      ⟨none, some "Annual accounts", some "2023-01-01"⟩ (by decide) (by decide),
   by decide⟩

/-! ### The document-resolving `filingHistory.js` variant — `getPdfUrl` -/

/-- What the two document-API calls of `getPdfUrl` observe for one
document: metadata response ok-ness, whether its `resources` list a
`application/pdf` representation (one truthiness check in the source),
and the status / `Location` header of the content request issued with
`redirect: "manual"`. -/
structure DocNet where
  metaOk : Bool
  metaHasPdf : Bool
  contentStatus : Nat
  contentLocation : Option String
  deriving DecidableEq, Repr

/-- `getPdfUrl`: `null` unless metadata is ok, a PDF representation
exists, and the (un-followed) content request is a 302 whose `Location`
header is non-empty.  (The source's `if (contentRes.ok) return null`
fallback and its final `return null` are both the `else none` arm.) -/
def getPdfUrl (net : DocNet) : Option String :=
  if net.metaOk = false then none
  else if net.metaHasPdf = false then none
  else if net.contentStatus = 302 then jsOrNull net.contentLocation
  else none

/-- `description_values` fields `prettyDescription` reads. -/
structure DescVals where
  made_up_date : Option String
  accounts_type : Option String
  category : Option String
  deriving DecidableEq, Repr

/-- A raw filing item, restricted to the fields this handler reads
(`links_document_metadata` is `item.links?.document_metadata`). -/
structure Filing7 where
  description : Option String
  description_values : Option DescVals
  transaction_id : String
  date : Option String
  links_document_metadata : Option String
  deriving DecidableEq, Repr

/-- Replace the first occurrence of `needle` (models
`s.replace(/needle/, repl)` for a literal pattern). -/
def replaceFirstL (needle repl hay : List Char) : List Char :=
  match firstIdx needle hay with
  | some i => hay.take i ++ repl ++ hay.drop (i + needle.length)
  | none => hay

/-- ASCII upper-casing of one character. -/
def toUpperChar (c : Char) : Char :=
  if 'a' ≤ c ∧ c ≤ 'z' then Char.ofNat (c.toNat - 32) else c

/-- `prettyDescription` of the handler. -/
def prettyDescription (f : Filing7) : String :=
  let d := jsOr f.description "Accounts filing"
  let madeUp :=
    match f.description_values.bind (fun v => v.made_up_date) with
    | some m => if m = "" then "" else "made up to " ++ m
    | none => ""
  let base := jsOrStr (jsOr (f.description_values.bind (fun v => v.accounts_type))
      (jsOr (f.description_values.bind (fun v => v.category))
        (String.mk ((replaceFirstL ("accounts-with-accounts-type-".toList) [] d.toList).map
          (fun c => if c = '-' then ' ' else c))))) ""
  let base2 :=
    if base = "" then "Accounts"
    else
      match base.toList with
      | [] => "Accounts"
      | c :: rest => String.mk (toUpperChar c :: rest)
  if madeUp = "" then base2 else base2 ++ " " ++ madeUp

/-- `docMetaPath ? docMetaPath.split("/").filter(Boolean).pop() : null`. -/
def docIdOf (f : Filing7) : Option String :=
  match f.links_document_metadata with
  | some p =>
    if p = "" then none
    else ((p.splitOn "/").filter (fun s => !s.isEmpty)).getLast?
  | none => none

/-- The registry viewer fallback URL. -/
def viewerUrl (company : String) (f : Filing7) : String :=
  "https://find-and-update.company-information.service.gov.uk/company/" ++ company ++
    "/filing-history/" ++ f.transaction_id

/-- One entry of the handler's `results` list. -/
structure FilingResult where
  date : Option String
  title : String
  documentId : Option String
  pdfUrl : Option String
  viewerUrl : String
  downloadable : Bool
  deriving DecidableEq, Repr

/-- The `results.push(...)` for one accounts filing: without a document
id the entry is the viewer-only fallback; with one, `pdfUrl` is whatever
`getPdfUrl` resolved and `downloadable` its truthiness (`!!pdfUrl`). -/
def filingEntry (company : String) (net : DocNet) (f : Filing7) : FilingResult :=
  match docIdOf f with
  | none => ⟨f.date, prettyDescription f, none, none, viewerUrl company f, false⟩
  | some docId =>
    ⟨f.date, prettyDescription f, some docId, getPdfUrl net, viewerUrl company f,
     (getPdfUrl net).isSome⟩

/-- `(f.description || "").toLowerCase().includes("accounts")`. -/
def descAccounts7 (f : Filing7) : Bool :=
  strIncludes (strLower (jsOr f.description "")) "accounts"

/-- The handler: filter to accounts filings, resolve each one against the
document API (`netOf` is the per-filing network oracle), then sort newest
first by `(b.date || "").localeCompare(a.date || "")`. -/
def filingHistoryPdf (company : String) (netOf : Filing7 → DocNet) (items : List Filing7) :
    List FilingResult :=
  ((items.filter descAccounts7).map (fun f => filingEntry company (netOf f) f)).insertionSort
    (fun a b => jsOr b.date "" ≤ jsOr a.date "")

/-- C7: a direct PDF URL is produced only when the document metadata was
fetched ok, lists an `application/pdf` representation, and the content
request answered 302 with a non-empty `Location` (which is the URL
returned); and whenever resolution yields no URL, the accounts filing is
still present in the results as non-downloadable with the viewer-URL
fallback and a null `pdfUrl`. -/
theorem filingHistoryPdf_resolution (company : String) (netOf : Filing7 → DocNet)
    (items : List Filing7) (f : Filing7) (hf : f ∈ items) (hd : descAccounts7 f = true) :
    filingEntry company (netOf f) f ∈ filingHistoryPdf company netOf items ∧
    (∀ url, getPdfUrl (netOf f) = some url →
      (netOf f).metaOk = true ∧ (netOf f).metaHasPdf = true ∧
      (netOf f).contentStatus = 302 ∧ (netOf f).contentLocation = some url ∧ url ≠ "") ∧
    (getPdfUrl (netOf f) = none →
      (filingEntry company (netOf f) f).pdfUrl = none ∧
      (filingEntry company (netOf f) f).downloadable = false ∧
      (filingEntry company (netOf f) f).viewerUrl = viewerUrl company f) := by
  refine ⟨?_, ?_, ?_⟩
  · exact (List.mem_insertionSort _).mpr
      (List.mem_map_of_mem _ (List.mem_filter.mpr ⟨hf, hd⟩))
  · intro url h
    unfold getPdfUrl at h
    by_cases h1 : (netOf f).metaOk = false
    · rw [if_pos h1] at h
      exact absurd h (Option.noConfusion)
    · rw [if_neg h1] at h
      by_cases h2 : (netOf f).metaHasPdf = false
      · rw [if_pos h2] at h
        exact absurd h (Option.noConfusion)
      · rw [if_neg h2] at h
        by_cases h3 : (netOf f).contentStatus = 302
        · rw [if_pos h3] at h
          cases hloc : (netOf f).contentLocation with
          | none => rw [hloc] at h; simp [jsOrNull] at h
          | some s =>
            rw [hloc] at h
            simp only [jsOrNull] at h
            by_cases hs : s = ""
            · rw [if_pos hs] at h; exact absurd h (Option.noConfusion)
            · rw [if_neg hs] at h
              cases h
              exact ⟨Bool.not_eq_false _ ▸ h1, Bool.not_eq_false _ ▸ h2, h3, rfl, hs⟩
        · rw [if_neg h3] at h
          exact absurd h (Option.noConfusion)
  · intro h
    cases hdoc : docIdOf f with
    | none => simp [filingEntry, hdoc, viewerUrl]
    | some docId => simp [filingEntry, hdoc, h, viewerUrl]

/-- A filing with a document-metadata link, for the witness. -/
def f7ex : Filing7 :=
  ⟨some "Annual accounts", none, "tx1", some "2023-01-01", some "/document/abc"⟩

/-- A network oracle answering 302 with a `Location`, for the witness. -/
def net7ex : DocNet :=
  ⟨true, true, 302, some "https://cdn.example/doc.pdf"⟩

theorem filingHistoryPdf_resolution_witness :
    filingEntry "123" net7ex f7ex ∈ filingHistoryPdf "123" (fun _ => net7ex) [f7ex] ∧
    net7ex.metaOk = true ∧ net7ex.contentStatus = 302 :=
  ⟨(filingHistoryPdf_resolution "123" (fun _ => net7ex) [f7ex] f7ex (by decide) (by decide)).1,
   (filingHistoryPdf_resolution "123" (fun _ => net7ex) [f7ex] f7ex (by decide)
      (by decide)).2.1 "https://cdn.example/doc.pdf" (by decide) |>.1,
   (filingHistoryPdf_resolution "123" (fun _ => net7ex) [f7ex] f7ex (by decide)
      (by decide)).2.1 "https://cdn.example/doc.pdf" (by decide) |>.2.2.1⟩

/-! ### `netlify/functions/filingHistory.js` (named file, first variant) — C10 -/

/-- The `links` sub-object of a registry filing entry. -/
structure RegLinks where
  document_metadata : Option String
  deriving DecidableEq, Repr

/-- A raw registry filing entry, restricted to the fields this handler
reads. -/
structure RegItem where
  description : Option String
  links : Option RegLinks
  date : Option String
  rtype : Option String
  category : Option String
  deriving DecidableEq, Repr

/-- `f.links && f.links.document_metadata` (both truthiness checks). -/
def hasDocLink (f : RegItem) : Bool :=
  f.links.isSome && truthyStr (f.links.bind (fun l => l.document_metadata))

/-- The handler's filter: description present and containing "accounts"
case-insensitively, AND a truthy `links.document_metadata`. -/
def keepReg (f : RegItem) : Bool :=
  truthyStr f.description && strIncludes (strLower (jsOr f.description "")) "accounts" &&
    hasDocLink f

/-- One item of the handler's `cleaned` output. -/
structure CleanItem where
  date : String
  description : String
  rtype : String
  category : String
  document_metadata : Option String
  deriving DecidableEq, Repr

/-- The per-filing mapping to the "safe structure". -/
def cleanItem (f : RegItem) : CleanItem :=
  ⟨jsOr f.date "Unknown date", jsOr f.description "No description", jsOr f.rtype "N/A",
   jsOr f.category "N/A", jsOrNull (f.links.bind (fun l => l.document_metadata))⟩

/-- The handler's response items: filter then map. -/
def filingHistoryClean (items : List RegItem) : List CleanItem :=
  (items.filter keepReg).map cleanItem

/-- C10: every item the named filing-history handler returns carries a
non-null `document_metadata` link, and entries without such a link are
silently omitted — dropping all link-less entries from the input leaves
the response unchanged, even for entries whose description does contain
"accounts". -/
theorem filingHistoryClean_doc_link (items : List RegItem) :
    (∀ c ∈ filingHistoryClean items, c.document_metadata ≠ none) ∧
    filingHistoryClean items = filingHistoryClean (items.filter hasDocLink) := by
  constructor
  · intro c hc
    obtain ⟨f, hf, hfc⟩ := List.mem_map.mp hc
    have hkeep : keepReg f = true := (List.mem_filter.mp hf).2
    have hdm : truthyStr (f.links.bind (fun l => l.document_metadata)) = true := by
      unfold keepReg hasDocLink at hkeep
      simp only [Bool.and_eq_true] at hkeep
      exact hkeep.2.2
    cases hbind : f.links.bind (fun l => l.document_metadata) with
    | none => rw [hbind] at hdm; exact absurd hdm (by simp [truthyStr])
    | some s =>
      rw [hbind] at hdm
      have hs : s ≠ "" := by
        by_contra hes
        rw [hes] at hdm
        simp [truthyStr] at hdm
      rw [← hfc]
      unfold cleanItem
      simp [hbind, jsOrNull, hs]
  · unfold filingHistoryClean
    congr 1
    rw [List.filter_filter]
    refine (List.filter_congr ?_).symm
    intro f _
    by_cases hk : keepReg f = true
    · have hdl : hasDocLink f = true := by
        unfold keepReg at hk
        simp only [Bool.and_eq_true] at hk
        exact hk.2
      rw [hk, hdl]
      rfl
    · rw [Bool.not_eq_true] at hk
      rw [hk]
      simp

/-- An accounts entry with a document link, for the witness. -/
def regGoodEx : RegItem :=
  ⟨some "Annual accounts", some ⟨some "/document/xyz"⟩, some "2023-01-01",
   some "AA", some "accounts"⟩

/-- An accounts entry whose links lack `document_metadata`, for the
witness — it satisfies the description filter yet is omitted. -/
def regBadEx : RegItem :=
  ⟨some "Annual accounts", some ⟨none⟩, some "2023-02-01", some "AA", some "accounts"⟩

theorem filingHistoryClean_doc_link_witness :
    (cleanItem regGoodEx).document_metadata ≠ none ∧
    filingHistoryClean [regGoodEx, regBadEx] = [cleanItem regGoodEx] ∧
    strIncludes (strLower (jsOr regBadEx.description "")) "accounts" = true :=
  ⟨(filingHistoryClean_doc_link [regGoodEx, regBadEx]).1 (cleanItem regGoodEx) (by decide),
   by decide, by decide⟩
